import Mathlib

/-!
Verification of `src/idb.ts`: a shallow embedding of the IndexedDB wrapper
(`namespace idb`) and proofs about its upsert engine (`setImageMap`,
`setImageMap2`, `setImageMap3`), its query layer (`getImageMaps`), its
singleton connection manager (`getSingletonDB`), its promise bridges
(`request2promise`, `transaction2promise`) and its schema bootstrap
(`open`'s `onupgradeneeded` handler).

Modelling conventions:
* JS `number` keys (`row`, `col`) are `Int`; primary keys assigned by the
  store's key generator are `Nat` (IndexedDB generators produce 1, 2, 3, ...).
* The binary payload (`ImageData | ArrayBuffer`) is an opaque `Nat` token.
* JS `null` and `undefined` both embed as `Option.none`.
* A committed transaction is `Except.ok` carrying the new store contents; an
  aborted transaction (failed request whose error is not handled, e.g. a
  `ConstraintError` from the unique index) is `Except.error`, and the store
  contents from before the transaction stand.
-/

namespace Idb

/-- JS `Error` values thrown by `idb.ts`.

* `timeout t` is `class TimeoutError` (`Timeout ${t}`), produced by the
  `timeout(time)` helper.
* `db cls msg cause` is the `DatabaseError` hierarchy: `cls` is
  `this.constructor.name` (`"DatabaseError"`, `"DatabaseIndexError"`,
  `"DatabaseTimeoutError"`), and `cause` records the inner error whose stack
  the constructor appends (`new DatabaseError(msg, err)`).
* `dom name msg` is an engine-raised `DOMException` (e.g. `request.error`). -/
inductive JSErr where
  | timeout (t : Nat)
  | db (cls : String) (msg : String) (cause : Option JSErr)
  | dom (errName : String) (msg : String)

/-- `error.name` of an embedded JS error (`this.name = this.constructor.name`). -/
def JSErr.name : JSErr → String
  | .timeout _ => "TimeoutError"
  | .db cls _ _ => cls
  | .dom n _ => n

/-- `error.message` of an embedded JS error. -/
def JSErr.message : JSErr → String
  | .timeout t => "Timeout " ++ toString t
  | .db _ m _ => m
  | .dom _ m => m

/-- `new DatabaseIndexError()`: `super('Miss index')`, name from the class. -/
def databaseIndexError : JSErr := .db "DatabaseIndexError" "Miss index" none

/-- `isNull(val)`: `val === null` (JS `null` embeds as `none`). -/
def isNull (val : Option Int) : Bool := val == none

/-- `isUndefined(val)`: `typeof val === 'undefined'` (JS `undefined` embeds as
`none`; `null` and `undefined` are collapsed onto `Option.none`). -/
def isUndefined (val : Option Int) : Bool := val == none

/-- `isNil(val)`: checks if value is null or undefined. -/
def isNil (val : Option Int) : Bool := isNull val || isUndefined val

/-- `OPEN_DB_TIMEOUT = 5 * 1000` (milliseconds). -/
def OPEN_DB_TIMEOUT : Nat := 5 * 1000

/-- The stored record type (`interface ImageMap`): optional auto-assigned
identity `id`, composite key components `row`/`col`, and the bitmap payload
(`data`, opaque token here). -/
structure ImageMap where
  id : Option Nat
  row : Int
  col : Int
  data : Nat
deriving DecidableEq, Repr

/-- The `image_map` object store: its records plus the state of the
auto-increment key generator (`keyPath: 'id'`, `autoIncrement: true`);
`nextId` is the next key the generator will hand out. -/
structure ImageMapStore where
  recs : List ImageMap
  nextId : Nat
deriving DecidableEq, Repr

/-- The key an `add`/`put` uses for value `v`, and the generator state
afterwards.  IndexedDB semantics: an in-line key present on the value is used
as-is and, when it is `≥` the generator's next key, bumps the generator past
it; an absent key is drawn from the generator. -/
def keyOf (s : ImageMapStore) (v : ImageMap) : Nat × Nat :=
  match v.id with
  | some i => (i, if s.nextId ≤ i then i + 1 else s.nextId)
  | none => (s.nextId, s.nextId + 1)

/-- The `ConstraintError` DOMException an `add`/`put` request fails with when
the primary key or the unique index `idx_row_col` is violated.  The failed
request is unhandled in `setImageMap*`, so the transaction aborts. -/
def constraintErr : JSErr := .dom "ConstraintError" "key already exists"

/-- `store.add(v)`: fails if the primary key is taken or the unique composite
index `idx_row_col` already holds `(v.row, v.col)`; otherwise stores the
record under the computed key. -/
def sadd (s : ImageMapStore) (v : ImageMap) : Except JSErr ImageMapStore :=
  if s.recs.any (fun m => m.id == some (keyOf s v).1) then .error constraintErr
  else if s.recs.any (fun m => m.row == v.row && m.col == v.col) then .error constraintErr
  else .ok ⟨⟨some (keyOf s v).1, v.row, v.col, v.data⟩ :: s.recs, (keyOf s v).2⟩

/-- `store.put(v)`: replaces the record with the same primary key (if any);
fails if a record with a *different* primary key already holds
`(v.row, v.col)` in the unique index `idx_row_col`. -/
def sput (s : ImageMapStore) (v : ImageMap) : Except JSErr ImageMapStore :=
  if s.recs.any (fun m => m.id != some (keyOf s v).1 && m.row == v.row && m.col == v.col) then
    .error constraintErr
  else
    .ok ⟨⟨some (keyOf s v).1, v.row, v.col, v.data⟩ ::
      s.recs.filter (fun m => m.id != some (keyOf s v).1), (keyOf s v).2⟩

/-- `store.delete(k)`: removes the record stored under primary key `k`
(never fails). -/
def sdelete (s : ImageMapStore) (k : Nat) : ImageMapStore :=
  ⟨s.recs.filter (fun m => m.id != some k), s.nextId⟩

/-- `store.index('idx_row_col').getAll(IDBKeyRange.only([row, col]))`: all
records whose composite key equals `[row, col]`. -/
def getAllIdx (s : ImageMapStore) (row col : Int) : List ImageMap :=
  s.recs.filter (fun m => m.row == row && m.col == col)

/-- `interface QueryParam { row?: number; col?: number }`. -/
structure QueryParam where
  row : Option Int
  col : Option Int

/-- The engine operations `getImageMaps` issues (used to state that the
`MissingIndex` path performs no lookup at all). -/
inductive QOp where
  | getAllOnly (row col : Int)
deriving DecidableEq

/-- `getImageMaps(query)`: when both `query.row` and `query.col` are non-nil
it issues a single exact-match `getAll` on `idx_row_col` with key
`[query.row, query.col]`; otherwise it throws `new DatabaseIndexError()`
before touching the store.  The second component is the trace of engine
operations performed. -/
def getImageMaps (query : QueryParam) (s : ImageMapStore) :
    Except JSErr (List ImageMap) × List QOp :=
  if !(isNil query.row) && !(isNil query.col) then
    let r := query.row.getD 0
    let c := query.col.getD 0
    (.ok (getAllIdx s r c), [QOp.getAllOnly r c])
  else
    (.error databaseIndexError, [])

/-- The delete phase of `setImageMap`'s loop: when the looked-up record
exists and `_imageMap && _imageMap.id` is truthy (`id` present and nonzero,
JS truthiness), delete it by its id. -/
def delPhase (s : ImageMapStore) (found : Option ImageMap) : ImageMapStore :=
  match found with
  | some m =>
    match m.id with
    | some i => if i ≠ 0 then sdelete s i else s
    | none => s
  | none => s

/-- One iteration of `setImageMap`'s loop: look up the existing record for
`(row, col)` (`const [_imageMap] = await getImageMaps(...)`), delete it by id
when present with a truthy id, then `store.add(imageMap)` unconditionally. -/
def step1 (s : ImageMapStore) (imageMap : ImageMap) : Except JSErr ImageMapStore :=
  sadd (delPhase s ((getAllIdx s imageMap.row imageMap.col).head?)) imageMap

/-- `setImageMap(imageMaps)`: sequential delete-then-add upsert, one
transaction; each iteration's lookup sees the writes of the previous
iterations.  `Except.ok` is the committed store, `Except.error` an abort. -/
def setImageMap (s : ImageMapStore) (imageMaps : List ImageMap) :
    Except JSErr ImageMapStore :=
  imageMaps.foldlM step1 s

/-- One iteration of `setImageMap2`'s loop: if a record for `(row, col)`
exists (`if (_imageMap)` — no check on its id), issue
`store.put({...imageMap, id: _imageMap.id})`; otherwise `store.add(imageMap)`. -/
def step2 (s : ImageMapStore) (imageMap : ImageMap) : Except JSErr ImageMapStore :=
  match (getAllIdx s imageMap.row imageMap.col).head? with
  | some m => sput s { imageMap with id := m.id }
  | none => sadd s imageMap

/-- `setImageMap2(imageMaps)`: sequential replace-by-put upsert, one
transaction. -/
def setImageMap2 (s : ImageMapStore) (imageMaps : List ImageMap) :
    Except JSErr ImageMapStore :=
  imageMaps.foldlM step2 s

/-- A write issued by one of `setImageMap3`'s tasks. -/
inductive WOp where
  | addW (v : ImageMap)
  | putW (v : ImageMap)
deriving DecidableEq

/-- The write `setImageMap3`'s task for `imageMap` decides on, given the store
contents its `getAll` observed: `if (_imageMap && _imageMap.id)` put keyed by
that id, else add.  In `setImageMap3` every lookup request is issued before
any write request runs, so every task observes the pre-batch contents. -/
def task3 (s : ImageMapStore) (imageMap : ImageMap) : WOp :=
  match (getAllIdx s imageMap.row imageMap.col).head? with
  | some m =>
    match m.id with
    | some i => if i ≠ 0 then .putW { imageMap with id := some i } else .addW imageMap
    | none => .addW imageMap
  | none => .addW imageMap

/-- Execute one of `setImageMap3`'s collected writes. -/
def applyW (s : ImageMapStore) : WOp → Except JSErr ImageMapStore
  | .addW v => sadd s v
  | .putW v => sput s v

/-- `setImageMap3(imageMaps)`: all `getAll` lookups are issued up front (the
`imageMaps.map(...)` of tasks), so they all observe the pre-batch store; the
engine then runs the decided writes in batch order within the same
transaction. -/
def setImageMap3 (s : ImageMapStore) (imageMaps : List ImageMap) :
    Except JSErr ImageMapStore :=
  (imageMaps.map (task3 s)).foldlM applyW s

/-- The composite-key uniqueness invariant: no two records in the store share
their `(row, col)` pair (what the unique index `idx_row_col` enforces). -/
def UniqueRC (s : ImageMapStore) : Prop :=
  s.recs.Pairwise (fun a b => ¬(a.row = b.row ∧ a.col = b.col))

/-- `idBelow o n`: the record's key is assigned and below the generator. -/
def idBelow (o : Option Nat) (n : Nat) : Bool :=
  match o with
  | some i => i < n
  | none => false

/-- Store well-formedness: every stored record carries an assigned primary key
below the generator's next key, and primary keys are pairwise distinct.  This
holds of every store IndexedDB itself can produce for a `keyPath`/
`autoIncrement` object store. -/
def WF (s : ImageMapStore) : Prop :=
  (∀ r ∈ s.recs, idBelow r.id s.nextId = true) ∧
    s.recs.Pairwise (fun a b => a.id ≠ b.id)

instance : DecidablePred UniqueRC := by
  intro s
  unfold UniqueRC
  infer_instance

instance : DecidablePred WF := by
  intro s
  unfold WF
  infer_instance

/-! ### Connection manager (`getSingletonDB`) -/

/-- `enum IDBDatabaseState { OPEN, CLOSING, CLOSED }`. -/
inductive DBState where
  | OPEN
  | CLOSING
  | CLOSED
deriving DecidableEq, Repr

/-- `isActive(db)`: `db.state === IDBDatabaseState.OPEN`. -/
def isActive (st : DBState) : Bool :=
  match st with
  | .OPEN => true
  | _ => false

/-- `db.close()` as overridden in `open.onsuccess`: sets `state = CLOSING`,
calls the original close, then sets `state = CLOSED`; the net state is
`CLOSED`. -/
def dbClose (_st : DBState) : DBState := DBState.CLOSED

/-- State of the `getSingletonDB` closure.  `db` is the module-level
`let db : IDBDatabase | undefined` as an index into `handles`; `handles`
records the state of every handle an `open()` has produced so far (a freshly
resolved handle is appended in state `OPEN`). -/
structure Mgr where
  db : Option Nat
  handles : List DBState
deriving DecidableEq, Repr

/-- `if (db && isActive(db))` on the closure state. -/
def activeAt (m : Mgr) : Bool :=
  match m.db with
  | some d => isActive (m.handles.getD d DBState.CLOSED)
  | none => false

/-- The synchronous prefix of a `getSingletonDB` call: if the cached handle is
active, return it (second component `true`); otherwise clear the cache
(`db = undefined`) and fall through to the open path (`false`).  This code
runs atomically: there is no `await` between the check and the `open()` call. -/
def mcheck (m : Mgr) : Mgr × Bool :=
  if activeAt m then (m, true)
  else ({ m with db := none }, false)

/-- An in-flight `open()` resolving inside some `getSingletonDB` call while
its `Promise.race` is still pending: the fresh handle `_db` (appended, state
`OPEN`) is either closed immediately — when `db && isActive(db)` already
holds — or installed as the new cached handle; the call then returns `db`.
The handler from the `await` through `return db` is synchronous, hence one
atomic step.  Second component: the handle index returned to the caller.
(An `open()` that settles only after its race was already rejected runs none
of this — see `MgrEv.resolveLost`.) -/
def mresolve (m : Mgr) : Mgr × Nat :=
  let h := m.handles.length
  let hs := m.handles ++ [DBState.OPEN]
  let m1 : Mgr := { db := m.db, handles := hs }
  if activeAt m1 then
    ({ m1 with handles := hs.set h (dbClose DBState.OPEN) }, m1.db.getD h)
  else
    ({ db := some h, handles := hs }, h)

/-- Atomic events of interleaved `getSingletonDB` calls: `check` is a call's
synchronous cache check; `resolve` is an `open()` settling while its
`Promise.race` is still pending, so the close-or-install handler runs;
`resolveLost` is an `open()` settling only after its race was already
rejected (the timeout fired first) — the `await` already threw, nobody is
listening to the `open()` promise any more, and no handler runs for the
freshly opened handle: it is neither closed nor installed. -/
inductive MgrEv where
  | check
  | resolve
  | resolveLost
deriving DecidableEq, Repr

/-- One atomic step of the interleaving.  A lost-race settlement allocates
the freshly opened handle (the engine did open the connection) but runs no
continuation: nothing ever closes or installs it. -/
def mstep (m : Mgr) : MgrEv → Mgr
  | .check => (mcheck m).1
  | .resolve => (mresolve m).1
  | .resolveLost => { m with handles := m.handles ++ [DBState.OPEN] }

/-- Run an interleaving of `getSingletonDB` call phases. -/
def mrun (m : Mgr) (evs : List MgrEv) : Mgr := evs.foldl mstep m

/-- Number of handles currently open. -/
def openCount (m : Mgr) : Nat := (m.handles.filter (fun st => isActive st)).length

/-- The closure's initial state: `db` undefined, no handle ever opened. -/
def mgrInit : Mgr := ⟨none, []⟩

/-! ### `getSingletonDB`'s open path: timeout race and error mapping -/

/-- How the engine settles `indexedDB.open(DATABASE, DATABASE_VERSION)`. -/
inductive OpenOutcome where
  | success
  | blocked
  | failed (errName msg : String)
deriving DecidableEq

/-- The rejection (or resolution) of the `open()` promise: `onblocked` rejects
with `new DatabaseError('IDB Blocked')`; `onerror` rejects with
`request.error` (a DOMException); `onsuccess` resolves. -/
def openPromise : OpenOutcome → Except JSErr Unit
  | .success => .ok ()
  | .blocked => .error (.db "DatabaseError" "IDB Blocked" none)
  | .failed n msg => .error (.dom n msg)

/-- Whether the `timeout(OPEN_DB_TIMEOUT)` promise settles the
`Promise.race` first: the engine never resolves `open` (`none`) or resolves
it only after the timeout has fired. -/
def timeoutWins : Option Nat → Bool
  | none => true
  | some t => decide (OPEN_DB_TIMEOUT < t)

/-- `Promise.race([timeout(OPEN_DB_TIMEOUT), open()])`, given the delay after
which the engine would settle `open` and its outcome. -/
def raceOpen (openDelay : Option Nat) (o : OpenOutcome) : Except JSErr Unit :=
  if timeoutWins openDelay then .error (.timeout OPEN_DB_TIMEOUT)
  else openPromise o

/-- The open path of `getSingletonDB` (the `try`/`catch` around the race):
`err instanceof TimeoutError` becomes
`new DatabaseTimeoutError('打开数据库超时。')`; every other rejection becomes
`new DatabaseError('打开数据库失败。', err)`. -/
def getSingletonDBOpen (openDelay : Option Nat) (o : OpenOutcome) : Except JSErr Unit :=
  match raceOpen openDelay o with
  | .ok u => .ok u
  | .error (.timeout _) => .error (.db "DatabaseTimeoutError" "打开数据库超时。" none)
  | .error e => .error (.db "DatabaseError" "打开数据库失败。" (some e))

/-- `error.name` of the error `getSingletonDB`'s open path fails with
(`""` when it succeeds). -/
def acquireErrName (openDelay : Option Nat) (o : OpenOutcome) : String :=
  match getSingletonDBOpen openDelay o with
  | .error e => e.name
  | .ok _ => ""

/-- `error.message` of the error `getSingletonDB`'s open path fails with
(`""` when it succeeds). -/
def acquireErrMsg (openDelay : Option Nat) (o : OpenOutcome) : String :=
  match getSingletonDBOpen openDelay o with
  | .error e => e.message
  | .ok _ => ""

/-! ### Promise bridges (`request2promise`, `transaction2promise`) -/

/-- A DOM error carried by a failed request (`request.error`). -/
structure ErrVal where
  errName : String
  msg : String
deriving DecidableEq, Repr

/-- `request2promise`'s `error` listener: when `request.error` exists and its
name is `'InvalidStateError'`, call `request.transaction?.db.close()` (a
close happens only when the request belongs to a transaction), then reject
with the error.  Returns the owning handle's state afterwards and the
rejection value. -/
def request2promiseOnError (err : Option ErrVal) (hasTx : Bool) (dbSt : DBState) :
    DBState × Option ErrVal :=
  match err with
  | some e =>
    (if e.errName == "InvalidStateError" && hasTx then dbClose dbSt else dbSt, some e)
  | none => (dbSt, none)

/-- `transaction2promise`'s `error` listener: when the failing request's error
exists and its name is `'InvalidStateError'`, call `tx.db.close()`, then
reject with the error. -/
def transaction2promiseOnError (err : Option ErrVal) (dbSt : DBState) :
    DBState × Option ErrVal :=
  match err with
  | some e =>
    (if e.errName == "InvalidStateError" then dbClose dbSt else dbSt, some e)
  | none => (dbSt, none)

/-! ### Schema bootstrap (`open`'s `onupgradeneeded` handler) -/

/-- Database schema state as the upgrade handler sees it: whether
`db.objectStoreNames.contains('image_map')`, whether
`imageMapStore.indexNames.contains('idx_row_col')`, and the rows the store
holds. -/
structure Schema where
  hasStore : Bool
  hasIndex : Bool
  rows : List ImageMap
deriving DecidableEq, Repr

/-- The schema-mutating calls the upgrade handler can make. -/
inductive UpCall where
  | createStore
  | createIndex
deriving DecidableEq, Repr

/-- Whether two rows share their `(row, col)` pair (which would make creating
the unique index fail). -/
def hasDupRC : List ImageMap → Bool
  | [] => false
  | r :: t => t.any (fun m => m.row == r.row && m.col == r.col) || hasDupRC t

/-- `db.createObjectStore('image_map', ...)`: throws if the store already
exists (the same `createObjectStore` may only run once); a newly created
store is empty but the call never touches rows of other stores — `rows` here
are the rows of `image_map`, which does not exist in this branch. -/
def createObjectStoreM (s : Schema) : Except JSErr Schema :=
  if s.hasStore then .error (.dom "ConstraintError" "object store already exists")
  else .ok { s with hasStore := true }

/-- `imageMapStore.createIndex('idx_row_col', ['row','col'], {unique: true})`:
throws if the index already exists; throws if the existing rows violate the
uniqueness constraint; never deletes rows. -/
def createIndexM (s : Schema) : Except JSErr Schema :=
  if s.hasIndex then .error (.dom "ConstraintError" "index already exists")
  else if hasDupRC s.rows then .error (.dom "ConstraintError" "unique index violation")
  else .ok { s with hasIndex := true }

/-- `request.onupgradeneeded`: create the `image_map` store only when
`!db.objectStoreNames.contains(IMAGE_MAP)` (else fetch it from the upgrade
transaction), then create `idx_row_col` only when
`!imageMapStore.indexNames.contains('idx_row_col')`.  Also returns the list
of creation calls made. -/
def onupgradeneeded (s : Schema) : Except JSErr (Schema × List UpCall) :=
  let storePhase : Except JSErr (Schema × List UpCall) :=
    if !s.hasStore then
      match createObjectStoreM s with
      | .ok s' => .ok (s', [UpCall.createStore])
      | .error e => .error e
    else
      .ok (s, [])
  match storePhase with
  | .error e => .error e
  | .ok (s1, c1) =>
    if !s1.hasIndex then
      match createIndexM s1 with
      | .ok s2 => .ok (s2, c1 ++ [UpCall.createIndex])
      | .error e => .error e
    else
      .ok (s1, c1)

/-! ## Lemmas: the store operations preserve the uniqueness invariant -/

theorem sadd_unique {s s' : ImageMapStore} {v : ImageMap}
    (hu : UniqueRC s) (h : sadd s v = .ok s') : UniqueRC s' := by
  unfold sadd at h
  by_cases h1 : (s.recs.any fun m => m.id == some (keyOf s v).1) = true
  · rw [if_pos h1] at h
    simp at h
  · rw [if_neg h1] at h
    by_cases h2 : (s.recs.any fun m => m.row == v.row && m.col == v.col) = true
    · rw [if_pos h2] at h
      simp at h
    · rw [if_neg h2] at h
      injection h with h
      subst h
      refine List.pairwise_cons.mpr ⟨?_, hu⟩
      intro b hb hrc
      obtain ⟨hr, hc⟩ := hrc
      refine h2 ?_
      simp only [List.any_eq_true]
      refine ⟨b, hb, ?_⟩
      have hr' : b.row = v.row := hr.symm
      have hc' : b.col = v.col := hc.symm
      simp [hr', hc']

theorem sput_unique {s s' : ImageMapStore} {v : ImageMap}
    (hu : UniqueRC s) (h : sput s v = .ok s') : UniqueRC s' := by
  unfold sput at h
  by_cases h1 :
      (s.recs.any fun m =>
        m.id != some (keyOf s v).1 && m.row == v.row && m.col == v.col) = true
  · rw [if_pos h1] at h
    simp at h
  · rw [if_neg h1] at h
    injection h with h
    subst h
    refine List.pairwise_cons.mpr ⟨?_, ?_⟩
    · intro b hb hrc
      obtain ⟨hr, hc⟩ := hrc
      have hbmem := (List.mem_filter.mp hb).1
      have hbid : (b.id != some (keyOf s v).1) = true := (List.mem_filter.mp hb).2
      refine h1 ?_
      simp only [List.any_eq_true]
      refine ⟨b, hbmem, ?_⟩
      have hr' : b.row = v.row := hr.symm
      have hc' : b.col = v.col := hc.symm
      simp [hr', hc', hbid]
    · exact List.Pairwise.sublist (List.filter_sublist _) hu

theorem sdelete_unique {s : ImageMapStore} {k : Nat}
    (hu : UniqueRC s) : UniqueRC (sdelete s k) :=
  List.Pairwise.sublist (List.filter_sublist _) hu

theorem delPhase_unique {s : ImageMapStore} {found : Option ImageMap}
    (hu : UniqueRC s) : UniqueRC (delPhase s found) := by
  cases found with
  | none => exact hu
  | some m =>
    cases hm : m.id with
    | none =>
      simp only [delPhase, hm]
      exact hu
    | some i =>
      simp only [delPhase, hm]
      by_cases hi : i ≠ 0
      · rw [if_pos hi]
        exact sdelete_unique hu
      · rw [if_neg hi]
        exact hu

theorem step1_unique {s s' : ImageMapStore} {r : ImageMap}
    (hu : UniqueRC s) (h : step1 s r = .ok s') : UniqueRC s' :=
  sadd_unique (delPhase_unique hu) h

theorem step2_unique {s s' : ImageMapStore} {r : ImageMap}
    (hu : UniqueRC s) (h : step2 s r = .ok s') : UniqueRC s' := by
  unfold step2 at h
  cases hf : (getAllIdx s r.row r.col).head? with
  | some m => rw [hf] at h; exact sput_unique hu h
  | none => rw [hf] at h; exact sadd_unique hu h

theorem applyW_unique {s s' : ImageMapStore} {w : WOp}
    (hu : UniqueRC s) (h : applyW s w = .ok s') : UniqueRC s' := by
  cases w with
  | addW v => exact sadd_unique hu h
  | putW v => exact sput_unique hu h

/-- Generic invariant preservation through `List.foldlM` in `Except`. -/
theorem foldlM_inv {α : Type} {f : ImageMapStore → α → Except JSErr ImageMapStore}
    {P : ImageMapStore → Prop}
    (hf : ∀ s a s', P s → f s a = .ok s' → P s') :
    ∀ (l : List α) (s s' : ImageMapStore), P s → l.foldlM f s = .ok s' → P s' := by
  intro l
  induction l with
  | nil =>
    intro s s' hP h
    simp only [List.foldlM_nil, pure, Except.pure] at h
    injection h with h
    exact h ▸ hP
  | cons a t ih =>
    intro s s' hP h
    rw [List.foldlM_cons] at h
    cases hfa : f s a with
    | error e => rw [hfa] at h; simp [Bind.bind, Except.bind] at h
    | ok s1 =>
      rw [hfa] at h
      simp only [Bind.bind, Except.bind] at h
      exact ih s1 s' (hf s a s1 hP hfa) h

/-! ## Lemmas: lookup and write computations under the invariants -/

/-- In a list with pairwise-distinct `(row, col)` pairs, the composite-index
lookup for a stored record's pair returns exactly that record. -/
theorem filter_rc_unique {l : List ImageMap} {m : ImageMap} {row col : Int}
    (hu : l.Pairwise (fun a b => ¬(a.row = b.row ∧ a.col = b.col)))
    (hm : m ∈ l) (hr : m.row = row) (hc : m.col = col) :
    l.filter (fun x => x.row == row && x.col == col) = [m] := by
  induction l with
  | nil => cases hm
  | cons a t ih =>
    rw [List.pairwise_cons] at hu
    cases hm with
    | head =>
      have ha : (m.row == row && m.col == col) = true := by simp [hr, hc]
      rw [List.filter_cons, if_pos ha]
      have ht : t.filter (fun x => x.row == row && x.col == col) = [] := by
        rw [List.filter_eq_nil_iff]
        intro x hx
        have := hu.1 x hx
        simp only [Bool.and_eq_true, beq_iff_eq]
        intro hcon
        exact this ⟨hr.trans hcon.1.symm, hc.trans hcon.2.symm⟩
      rw [ht]
    | tail _ hmt =>
      have ha : ¬((a.row == row && a.col == col) = true) := by
        have := hu.1 m hmt
        simp only [Bool.and_eq_true, beq_iff_eq]
        intro hcon
        exact this ⟨hcon.1.trans hr.symm, hcon.2.trans hc.symm⟩
      rw [List.filter_cons, if_neg ha]
      exact ih hu.2 hmt

/-- `getAllIdx` on a unique store finds exactly the stored match. -/
theorem getAllIdx_unique {s : ImageMapStore} {m : ImageMap} {row col : Int}
    (hu : UniqueRC s) (hm : m ∈ s.recs) (hr : m.row = row) (hc : m.col = col) :
    getAllIdx s row col = [m] :=
  filter_rc_unique hu hm hr hc

/-- A fold of a single-element list in `Except` is the single step. -/
theorem foldlM_single {α : Type} (f : ImageMapStore → α → Except JSErr ImageMapStore)
    (s : ImageMapStore) (a : α) : List.foldlM f s [a] = f s a := by
  cases h : f s a with
  | ok s1 => simp [List.foldlM_cons, List.foldlM_nil, h, Bind.bind, Except.bind, pure, Except.pure]
  | error e => simp [List.foldlM_cons, List.foldlM_nil, h, Bind.bind, Except.bind]

/-- Under `WF`, a stored record's key is below the generator. -/
theorem id_lt_nextId {s : ImageMapStore} {m : ImageMap} {j : Nat}
    (hW : WF s) (hm : m ∈ s.recs) (hid : m.id = some j) : j < s.nextId := by
  have := hW.1 m hm
  rw [hid] at this
  simpa [idBelow] using this

/-- The `put` issued for a replace (`{...imageMap, id: _imageMap.id}` with the
match's assigned key) succeeds on a well-formed unique store and yields the
replaced record under the same key. -/
theorem sput_replace {s : ImageMapStore} {r m : ImageMap} {j : Nat}
    (hW : WF s) (hu : UniqueRC s) (hm : m ∈ s.recs)
    (hr : m.row = r.row) (hc : m.col = r.col) (hid : m.id = some j) :
    sput s { r with id := some j } =
      .ok ⟨⟨some j, r.row, r.col, r.data⟩ ::
        s.recs.filter (fun x => x.id != some j), s.nextId⟩ := by
  have hkey : keyOf s { r with id := some j } = (j, s.nextId) := by
    have hlt : j < s.nextId := id_lt_nextId hW hm hid
    simp [keyOf, Nat.not_le.mpr hlt]
  have hcond :
      (s.recs.any fun x =>
        x.id != some (keyOf s { r with id := some j }).1 &&
          x.row == ({ r with id := some j } : ImageMap).row &&
          x.col == ({ r with id := some j } : ImageMap).col) = false := by
    rw [List.any_eq_false]
    intro x hx
    simp only [hkey, Bool.and_eq_true, bne_iff_ne, beq_iff_eq]
    rintro ⟨⟨hxid, hxr⟩, hxc⟩
    have hxm : x = m := by
      have hxmem : x ∈ s.recs.filter (fun y => y.row == r.row && y.col == r.col) := by
        rw [List.mem_filter]
        exact ⟨hx, by simp [hxr, hxc]⟩
      rw [filter_rc_unique hu hm hr hc] at hxmem
      simpa using hxmem
    exact hxid (hxm ▸ hid)
  unfold sput
  rw [if_neg (by simp [hcond])]
  rw [hkey]

/-! ## Lemmas: the connection-manager state machine -/

theorem set_snoc {α : Type} (l : List α) (a b : α) :
    (l ++ [a]).set l.length b = l ++ [b] := by
  induction l with
  | nil => rfl
  | cons x t ih => simp [List.set_cons_succ, ih]

theorem getD_snoc_len {α : Type} (l : List α) (a d : α) :
    (l ++ [a]).getD l.length d = a := by
  rw [List.getD_append_right _ _ _ _ (Nat.le_refl _)]
  simp

/-- A handle observed `OPEN` lies within the allocated range. -/
theorem getD_open_lt {l : List DBState} {d : Nat}
    (h : l.getD d DBState.CLOSED = DBState.OPEN) : d < l.length := by
  by_contra hle
  rw [List.getD_eq_default _ _ (Nat.le_of_not_lt hle)] at h
  cases h

theorem activeAt_some {m : Mgr} {d : Nat} (h : m.db = some d) :
    activeAt m = isActive (m.handles.getD d DBState.CLOSED) := by
  unfold activeAt
  rw [h]

theorem activeAt_none {m : Mgr} (h : m.db = none) : activeAt m = false := by
  unfold activeAt
  rw [h]

/-- The one-open-handle invariant once a handle is current: the cached `db`
points at an allocated `OPEN` handle and it is the only open one. -/
def Inv2 (m : Mgr) : Prop :=
  ∃ d, m.db = some d ∧ d < m.handles.length ∧
    m.handles.getD d DBState.CLOSED = DBState.OPEN ∧ openCount m = 1

/-- The reachable-state invariant of the `getSingletonDB` closure. -/
def MgrInv (m : Mgr) : Prop :=
  (m.db = none ∧ openCount m = 0) ∨ Inv2 m

theorem openCount_snoc_open (m : Mgr) (db' : Option Nat) :
    openCount ⟨db', m.handles ++ [DBState.OPEN]⟩ = openCount m + 1 := by
  simp [openCount, List.filter_append, isActive]

theorem openCount_snoc_closed (m : Mgr) (db' : Option Nat) :
    openCount ⟨db', m.handles ++ [DBState.CLOSED]⟩ = openCount m := by
  simp [openCount, List.filter_append, isActive]

theorem mcheck_inv {m : Mgr} (h : MgrInv m) : MgrInv (mcheck m).1 := by
  cases h with
  | inl h =>
    have ha : activeAt m = false := activeAt_none h.1
    simp only [mcheck, ha, Bool.false_eq_true, if_false]
    exact Or.inl ⟨rfl, by simpa [openCount] using h.2⟩
  | inr h =>
    obtain ⟨d, hdb, hlt, hopen, hcount⟩ := h
    have ha : activeAt m = true := by rw [activeAt_some hdb, hopen]; rfl
    simp only [mcheck, ha, if_true]
    exact Or.inr ⟨d, hdb, hlt, hopen, hcount⟩

theorem mresolve_inv2 {m : Mgr} (h : MgrInv m) : Inv2 (mresolve m).1 := by
  cases h with
  | inl h =>
    obtain ⟨hdb, hcount⟩ := h
    have ha : activeAt { db := m.db, handles := m.handles ++ [DBState.OPEN] } = false :=
      activeAt_none hdb
    simp only [mresolve, ha, Bool.false_eq_true, if_false]
    refine ⟨m.handles.length, rfl, by simp, ?_, ?_⟩
    · exact getD_snoc_len _ _ _
    · rw [openCount_snoc_open m]
      rw [hcount]
  | inr h =>
    obtain ⟨d, hdb, hlt, hopen, hcount⟩ := h
    have hgd : (m.handles ++ [DBState.OPEN]).getD d DBState.CLOSED = DBState.OPEN := by
      rw [List.getD_append _ _ _ _ hlt]
      exact hopen
    have ha : activeAt { db := m.db, handles := m.handles ++ [DBState.OPEN] } = true := by
      rw [activeAt_some (m := { db := m.db, handles := m.handles ++ [DBState.OPEN] }) hdb, hgd]; rfl
    simp only [mresolve, ha, if_true]
    refine ⟨d, hdb, ?_, ?_, ?_⟩
    · simp only [dbClose, set_snoc]
      simp only [List.length_append, List.length_cons, List.length_nil]
      omega
    · simp only [dbClose, set_snoc]
      rw [List.getD_append _ _ _ _ hlt]
      exact hopen
    · simp only [dbClose, set_snoc]
      rw [openCount_snoc_closed ⟨m.db, m.handles⟩ m.db]
      exact hcount

theorem inv2_of_inv2_step {m : Mgr} (e : MgrEv) (he : e ≠ MgrEv.resolveLost)
    (h : Inv2 m) : Inv2 (mstep m e) := by
  cases e with
  | check =>
    have h' := mcheck_inv (Or.inr h)
    obtain ⟨d, hdb, hlt, hopen, hcount⟩ := h
    have ha : activeAt m = true := by rw [activeAt_some hdb, hopen]; rfl
    simp only [mstep, mcheck, ha, if_true]
    exact ⟨d, hdb, hlt, hopen, hcount⟩
  | resolve => exact mresolve_inv2 (Or.inr h)
  | resolveLost => exact absurd rfl he

theorem mgrInv_step {m : Mgr} (e : MgrEv) (he : e ≠ MgrEv.resolveLost)
    (h : MgrInv m) : MgrInv (mstep m e) := by
  cases e with
  | check => exact mcheck_inv h
  | resolve => exact Or.inr (mresolve_inv2 h)
  | resolveLost => exact absurd rfl he

theorem inv2_run {m : Mgr} (evs : List MgrEv) (hno : MgrEv.resolveLost ∉ evs)
    (h : Inv2 m) : Inv2 (mrun m evs) := by
  induction evs generalizing m with
  | nil => exact h
  | cons e t ih =>
    have he : e ≠ MgrEv.resolveLost := fun hcon => hno (hcon ▸ List.mem_cons_self e t)
    have hno' : MgrEv.resolveLost ∉ t := fun hm2 => hno (List.mem_cons_of_mem e hm2)
    exact ih hno' (inv2_of_inv2_step e he h)

theorem inv2_of_resolve_mem {m : Mgr} (evs : List MgrEv)
    (hno : MgrEv.resolveLost ∉ evs) (h : MgrInv m)
    (hmem : MgrEv.resolve ∈ evs) : Inv2 (mrun m evs) := by
  induction evs generalizing m with
  | nil => cases hmem
  | cons e t ih =>
    have hno' : MgrEv.resolveLost ∉ t := fun hm2 => hno (List.mem_cons_of_mem e hm2)
    cases e with
    | resolve => exact inv2_run t hno' (mresolve_inv2 h)
    | check =>
      have hmem' : MgrEv.resolve ∈ t := by
        cases hmem with
        | tail _ h' => exact h'
      exact ih hno' (mgrInv_step .check (by intro hcon; exact MgrEv.noConfusion hcon) h) hmem'
    | resolveLost => exact absurd (List.mem_cons_self _ _) hno

/-! ## Claim theorems -/

/-- Claim C1: for every batch of records passed to any upsert entry point
(`setImageMap`, `setImageMap2`, or `setImageMap3`) whose transaction commits,
the store afterwards contains at most one record for each distinct
`(row, col)` pair — every upsert preserves the composite-key uniqueness
invariant. -/
theorem upsert_preserves_uniqueness :
    ∀ (s : ImageMapStore) (imageMaps : List ImageMap),
      UniqueRC s →
      (∀ s1, setImageMap s imageMaps = .ok s1 → UniqueRC s1) ∧
      (∀ s2, setImageMap2 s imageMaps = .ok s2 → UniqueRC s2) ∧
      (∀ s3, setImageMap3 s imageMaps = .ok s3 → UniqueRC s3) := by
  intro s imageMaps hu
  refine ⟨?_, ?_, ?_⟩
  · intro s1 h
    exact foldlM_inv (fun a b c hP hab => step1_unique hP hab) imageMaps s s1 hu h
  · intro s2 h
    exact foldlM_inv (fun a b c hP hab => step2_unique hP hab) imageMaps s s2 hu h
  · intro s3 h
    exact foldlM_inv (fun a b c hP hab => applyW_unique hP hab)
      (imageMaps.map (task3 s)) s s3 hu h

/-- Witness for C1: a concrete two-record batch upserted into the empty store
by each of the three entry points leaves a store satisfying the invariant. -/
theorem upsert_preserves_uniqueness_witness :
    UniqueRC ⟨[⟨some 2, 0, 1, 6⟩, ⟨some 1, 0, 0, 5⟩], 3⟩ :=
  (upsert_preserves_uniqueness ⟨[], 1⟩ [⟨none, 0, 0, 5⟩, ⟨none, 0, 1, 6⟩]
    (by decide)).1 ⟨[⟨some 2, 0, 1, 6⟩, ⟨some 1, 0, 0, 5⟩], 3⟩ (by rfl)

/-- Claim C2: for a record `r` handled by `setImageMap2` or `setImageMap3`,
if a record `m` with the same `(row, col)` pair already exists with an
assigned (truthy, i.e. nonzero — engine-assigned keys start at 1) id, the
upsert issues a `put` keyed by `m`'s id, and after commit the stored record
keeps the same id while all other fields carry `r`'s values (replace, not
merge). -/
theorem upsert_replace_preserves_identity :
    ∀ (s : ImageMapStore) (r m : ImageMap) (j : Nat),
      WF s → UniqueRC s → m ∈ s.recs → m.row = r.row → m.col = r.col →
      m.id = some j → j ≠ 0 →
      step2 s r = sput s { r with id := some j } ∧
      task3 s r = WOp.putW { r with id := some j } ∧
      ∃ s', setImageMap2 s [r] = .ok s' ∧ setImageMap3 s [r] = .ok s' ∧
        getAllIdx s' r.row r.col = [⟨some j, r.row, r.col, r.data⟩] := by
  intro s r m j hW hu hm hr hc hid hj
  have hga : getAllIdx s r.row r.col = [m] := getAllIdx_unique hu hm hr hc
  have hstep2 : step2 s r = sput s { r with id := some j } := by
    unfold step2
    rw [hga]
    show sput s { r with id := m.id } = _
    rw [hid]
  have htask3 : task3 s r = WOp.putW { r with id := some j } := by
    unfold task3
    rw [hga]
    show (match m.id with
      | some i => if i ≠ 0 then WOp.putW { r with id := some i } else WOp.addW r
      | none => WOp.addW r) = _
    rw [hid]
    show (if j ≠ 0 then WOp.putW { r with id := some j } else WOp.addW r) = _
    rw [if_pos hj]
  have hput := sput_replace hW hu hm hr hc hid
  have htail :
      (s.recs.filter (fun x => x.id != some j)).filter
        (fun x => x.row == r.row && x.col == r.col) = [] := by
    rw [List.filter_eq_nil_iff]
    intro x hx
    have hxq : (x.id != some j) = true := (List.mem_filter.mp hx).2
    intro hpx
    have hxm : x = m := by
      have hmem2 : x ∈ getAllIdx s r.row r.col :=
        List.mem_filter.mpr ⟨(List.mem_filter.mp hx).1, hpx⟩
      rw [hga] at hmem2
      simpa using hmem2
    rw [hxm, hid] at hxq
    simp at hxq
  have hfinal :
      getAllIdx ⟨⟨some j, r.row, r.col, r.data⟩ ::
        s.recs.filter (fun x => x.id != some j), s.nextId⟩ r.row r.col =
      [⟨some j, r.row, r.col, r.data⟩] := by
    unfold getAllIdx
    rw [List.filter_cons, if_pos (by simp), htail]
  refine ⟨hstep2, htask3, _, ?_, ?_, hfinal⟩
  · show List.foldlM step2 s [r] = _
    rw [foldlM_single, hstep2, hput]
  · show List.foldlM applyW s ([r].map (task3 s)) = _
    simp only [List.map_cons, List.map_nil]
    rw [foldlM_single]
    show applyW s (task3 s r) = _
    rw [htask3]
    show sput s { r with id := some j } = _
    rw [hput]

/-- Witness for C2: upserting `⟨row 2, col 3, data 9⟩` over a store holding
`⟨id 1, row 2, col 3, data 7⟩` keeps id 1 and replaces the payload, through
both `setImageMap2` and `setImageMap3`. -/
theorem upsert_replace_preserves_identity_witness :
    step2 ⟨[⟨some 1, 2, 3, 7⟩], 2⟩ ⟨none, 2, 3, 9⟩ =
      sput ⟨[⟨some 1, 2, 3, 7⟩], 2⟩ ⟨some 1, 2, 3, 9⟩ ∧
    task3 ⟨[⟨some 1, 2, 3, 7⟩], 2⟩ ⟨none, 2, 3, 9⟩ = WOp.putW ⟨some 1, 2, 3, 9⟩ ∧
    ∃ s', setImageMap2 ⟨[⟨some 1, 2, 3, 7⟩], 2⟩ [⟨none, 2, 3, 9⟩] = .ok s' ∧
      setImageMap3 ⟨[⟨some 1, 2, 3, 7⟩], 2⟩ [⟨none, 2, 3, 9⟩] = .ok s' ∧
      getAllIdx s' 2 3 = [⟨some 1, 2, 3, 9⟩] :=
  upsert_replace_preserves_identity ⟨[⟨some 1, 2, 3, 7⟩], 2⟩ ⟨none, 2, 3, 9⟩
    ⟨some 1, 2, 3, 7⟩ 1 (by decide) (by decide) (by decide) rfl rfl rfl (by decide)

/-- Counterexample to claim C3 as stated: `setImageMap` does delete the match
and re-add, but when the candidate record itself carries an explicit in-line
`id` equal to the match's id, the re-added record is stored under that same
id — the stored record's id does *not* differ from `m`'s id, and the
transaction commits. -/
theorem setImageMap_identity_change_cex :
    ¬ (∀ s', setImageMap ⟨[⟨some 1, 0, 0, 7⟩], 2⟩ [⟨some 1, 0, 0, 9⟩] = .ok s' →
        ∀ x ∈ s'.recs, x.row = 0 → x.col = 0 → x.id ≠ some 1) := by
  intro h
  exact h ⟨[⟨some 1, 0, 0, 9⟩], 2⟩ (by rfl) ⟨some 1, 0, 0, 9⟩ (by simp) rfl rfl rfl

/-- Claim C3 (amended): for a record `r` *carrying no pre-assigned id* given
to `setImageMap`, if a record `m` with the same `(row, col)` pair exists with
an assigned (nonzero) id `j`, `setImageMap` first deletes `m` by its id and
then inserts `r` as a new record, so after commit the stored record's id is
the freshly generated key, different from `m`'s id. -/
theorem setImageMap_fresh_identity :
    ∀ (s : ImageMapStore) (r m : ImageMap) (j : Nat),
      WF s → UniqueRC s → m ∈ s.recs → m.row = r.row → m.col = r.col →
      m.id = some j → j ≠ 0 → r.id = none →
      step1 s r = sadd (sdelete s j) r ∧
      s.nextId ≠ j ∧
      ∃ s', setImageMap s [r] = .ok s' ∧
        getAllIdx s' r.row r.col = [⟨some s.nextId, r.row, r.col, r.data⟩] := by
  intro s r m j hW hu hm hr hc hid hj hrid
  have hga : getAllIdx s r.row r.col = [m] := getAllIdx_unique hu hm hr hc
  have hlt : j < s.nextId := id_lt_nextId hW hm hid
  have hstep : step1 s r = sadd (sdelete s j) r := by
    unfold step1
    rw [hga]
    show sadd (match m.id with
      | some i => if i ≠ 0 then sdelete s i else s
      | none => s) r = _
    rw [hid]
    show sadd (if j ≠ 0 then sdelete s j else s) r = _
    rw [if_pos hj]
  have hkey : keyOf (sdelete s j) r = (s.nextId, s.nextId + 1) := by
    unfold keyOf
    rw [hrid]
    rfl
  have hcond1 :
      ((sdelete s j).recs.any fun x => x.id == some (keyOf (sdelete s j) r).1) = false := by
    rw [List.any_eq_false]
    intro x hx
    have hxmem : x ∈ s.recs := (List.mem_filter.mp hx).1
    have hxb := hW.1 x hxmem
    rw [hkey]
    cases hxid : x.id with
    | none => simp
    | some i =>
      rw [hxid] at hxb
      have hxi : i < s.nextId := by simpa [idBelow] using hxb
      simp only [Option.some.injEq, beq_iff_eq]
      omega
  have hcond2 :
      ((sdelete s j).recs.any fun x => x.row == r.row && x.col == r.col) = false := by
    rw [List.any_eq_false]
    intro x hx
    have hxq : (x.id != some j) = true := (List.mem_filter.mp hx).2
    intro hpx
    have hxm : x = m := by
      have hmem2 : x ∈ getAllIdx s r.row r.col :=
        List.mem_filter.mpr ⟨(List.mem_filter.mp hx).1, hpx⟩
      rw [hga] at hmem2
      simpa using hmem2
    rw [hxm, hid] at hxq
    simp at hxq
  have hadd : sadd (sdelete s j) r =
      .ok ⟨⟨some s.nextId, r.row, r.col, r.data⟩ :: (sdelete s j).recs, s.nextId + 1⟩ := by
    unfold sadd
    rw [if_neg (by simp [hcond1]), if_neg (by simp [hcond2]), hkey]
  have htail :
      ((sdelete s j).recs).filter (fun x => x.row == r.row && x.col == r.col) = [] :=
    List.filter_eq_nil_iff.mpr (by
      intro x hx
      have := List.any_eq_false.mp hcond2 x hx
      simpa using this)
  refine ⟨hstep, Nat.ne_of_gt hlt,
    ⟨⟨⟨some s.nextId, r.row, r.col, r.data⟩ :: (sdelete s j).recs, s.nextId + 1⟩, ?_, ?_⟩⟩
  · show List.foldlM step1 s [r] = _
    rw [foldlM_single, hstep, hadd]
  · unfold getAllIdx
    rw [List.filter_cons, if_pos (by simp), htail]

/-- Witness for the amended C3: upserting an id-less `⟨row 2, col 3, data 9⟩`
over a store holding `⟨id 1, row 2, col 3, data 7⟩` stores the record under
the fresh key 2 ≠ 1. -/
theorem setImageMap_fresh_identity_witness :
    step1 ⟨[⟨some 1, 2, 3, 7⟩], 2⟩ ⟨none, 2, 3, 9⟩ =
      sadd (sdelete ⟨[⟨some 1, 2, 3, 7⟩], 2⟩ 1) ⟨none, 2, 3, 9⟩ ∧
    (⟨[⟨some 1, 2, 3, 7⟩], 2⟩ : ImageMapStore).nextId ≠ 1 ∧
    ∃ s', setImageMap ⟨[⟨some 1, 2, 3, 7⟩], 2⟩ [⟨none, 2, 3, 9⟩] = .ok s' ∧
      getAllIdx s' 2 3 = [⟨some 2, 2, 3, 9⟩] :=
  setImageMap_fresh_identity ⟨[⟨some 1, 2, 3, 7⟩], 2⟩ ⟨none, 2, 3, 9⟩
    ⟨some 1, 2, 3, 7⟩ 1 (by decide) (by decide) (by decide) rfl rfl rfl
    (by decide) rfl

/-- Counterexample to claim C4 as stated: two concurrent `getSingletonDB`
calls both miss the cache; one `open()` resolves in time and is installed,
the other settles only after its `Promise.race` was lost to the timeout (its
caller already threw `DatabaseTimeoutError`), so the close-or-install handler
never runs for it.  All calls have settled, yet two handles remain open: the
lost-race handle leaks and nothing ever closes it, so "exactly one session
handle remains open" fails. -/
theorem getSingletonDB_leak_cex :
    openCount (mrun mgrInit
      [MgrEv.check, MgrEv.check, MgrEv.resolve, MgrEv.resolveLost]) = 2 ∧
    openCount (mrun mgrInit
      [MgrEv.check, MgrEv.check, MgrEv.resolve, MgrEv.resolveLost]) ≠ 1 := by
  decide

/-- Claim C4 (amended): if, when an in-flight open attempt of
`getSingletonDB` resolves while its race is still live (so the
close-or-install handler runs), another session is already current and
`OPEN`, the newly opened duplicate handle is closed immediately and the
already-current session is returned instead; and every interleaving of call
phases containing an open resolution *and no lost-race settlement* ends with
exactly one open handle.  An `open()` settling after its race was lost runs
no handler and permanently adds one more open, never-closed handle. -/
theorem getSingletonDB_no_duplicate :
    ∀ (m : Mgr) (d : Nat) (evs : List MgrEv),
      (m.db = some d → m.handles.getD d DBState.CLOSED = DBState.OPEN →
        (mresolve m).1.db = some d ∧ (mresolve m).2 = d ∧
        (mresolve m).1.handles.getD m.handles.length DBState.CLOSED = DBState.CLOSED) ∧
      (MgrEv.resolveLost ∉ evs → MgrEv.resolve ∈ evs →
        openCount (mrun mgrInit evs) = 1) ∧
      openCount (mstep m MgrEv.resolveLost) = openCount m + 1 := by
  intro m d evs
  refine ⟨?_, ?_, ?_⟩
  · intro hdb hopen
    have hlt : d < m.handles.length := getD_open_lt hopen
    have hgd : (m.handles ++ [DBState.OPEN]).getD d DBState.CLOSED = DBState.OPEN := by
      rw [List.getD_append _ _ _ _ hlt]
      exact hopen
    have ha : activeAt { db := m.db, handles := m.handles ++ [DBState.OPEN] } = true := by
      rw [activeAt_some (m := { db := m.db, handles := m.handles ++ [DBState.OPEN] }) hdb, hgd]
      rfl
    refine ⟨?_, ?_, ?_⟩
    · simp only [mresolve, ha, if_true]
      exact hdb
    · simp only [mresolve, ha, if_true]
      rw [hdb]
      rfl
    · simp only [mresolve, ha, if_true, dbClose, set_snoc]
      exact getD_snoc_len _ _ _
  · intro hno hmem
    obtain ⟨d', _, _, _, hcount⟩ :=
      inv2_of_resolve_mem (m := mgrInit) evs hno (Or.inl ⟨rfl, rfl⟩) hmem
    exact hcount
  · exact openCount_snoc_open m m.db

/-- Witness for the amended C4: with handle 0 current and `OPEN`, a resolving
duplicate is closed (handle 1 ends `CLOSED`) and handle 0 is returned; the
lost-race-free interleaving check–resolve–resolve of two concurrent calls
ends with exactly one open handle; and a lost-race settlement on that
one-open-handle state adds a second open handle. -/
theorem getSingletonDB_no_duplicate_witness :
    ((mresolve ⟨some 0, [DBState.OPEN]⟩).1.db = some 0 ∧
      (mresolve ⟨some 0, [DBState.OPEN]⟩).2 = 0 ∧
      (mresolve ⟨some 0, [DBState.OPEN]⟩).1.handles.getD 1 DBState.CLOSED =
        DBState.CLOSED) ∧
    openCount (mrun mgrInit [MgrEv.check, MgrEv.resolve, MgrEv.resolve]) = 1 ∧
    openCount (mstep ⟨some 0, [DBState.OPEN]⟩ MgrEv.resolveLost) =
      openCount ⟨some 0, [DBState.OPEN]⟩ + 1 := by
  have h := getSingletonDB_no_duplicate ⟨some 0, [DBState.OPEN]⟩ 0
    [MgrEv.check, MgrEv.resolve, MgrEv.resolve]
  exact ⟨h.1 rfl rfl, h.2.1 (by decide) (by decide), h.2.2⟩

/-- Claim C5: if the engine's open does not resolve within the fixed
`OPEN_DB_TIMEOUT` of 5000 ms, `getSingletonDB` rejects with the
`DatabaseTimeoutError` class (`打开数据库超时。`), whose name is distinct from
the generic `DatabaseError` connection-failure class, rather than hanging. -/
theorem getSingletonDB_timeout :
    ∀ (openDelay : Option Nat) (o : OpenOutcome),
      timeoutWins openDelay = true →
      getSingletonDBOpen openDelay o =
        .error (.db "DatabaseTimeoutError" "打开数据库超时。" none) ∧
      acquireErrName openDelay o = "DatabaseTimeoutError" ∧
      acquireErrName openDelay o ≠ "DatabaseError" := by
  intro dl o h
  have hr : raceOpen dl o = .error (.timeout OPEN_DB_TIMEOUT) := by
    unfold raceOpen
    rw [if_pos h]
  have hg : getSingletonDBOpen dl o =
      .error (.db "DatabaseTimeoutError" "打开数据库超时。" none) := by
    unfold getSingletonDBOpen
    rw [hr]
  have hn : acquireErrName dl o = "DatabaseTimeoutError" := by
    unfold acquireErrName
    rw [hg]
    rfl
  refine ⟨hg, hn, ?_⟩
  rw [hn]
  decide

/-- Witness for C5: an engine that never resolves the open (`none`) trips the
timeout and yields the `DatabaseTimeoutError` class. -/
theorem getSingletonDB_timeout_witness :
    getSingletonDBOpen none OpenOutcome.success =
      .error (.db "DatabaseTimeoutError" "打开数据库超时。" none) ∧
    acquireErrName none OpenOutcome.success = "DatabaseTimeoutError" ∧
    acquireErrName none OpenOutcome.success ≠ "DatabaseError" :=
  getSingletonDB_timeout none OpenOutcome.success rfl

/-- Counterexample to claim C6 as stated: when the engine reports the open as
blocked, `getSingletonDB` fails with an error whose class name and message
(`DatabaseError`, `打开数据库失败。`) are identical to those of a generic open
failure — there is no distinct `ConnectionBlocked`-class error, so the caller
cannot distinguish a blocked open from a generic open failure by the error's
class. -/
theorem getSingletonDB_blocked_cex :
    acquireErrName (some 10) OpenOutcome.blocked = "DatabaseError" ∧
    acquireErrMsg (some 10) OpenOutcome.blocked = "打开数据库失败。" ∧
    acquireErrName (some 10) (OpenOutcome.failed "AbortError" "open failed") =
      "DatabaseError" ∧
    acquireErrMsg (some 10) (OpenOutcome.failed "AbortError" "open failed") =
      "打开数据库失败。" :=
  ⟨rfl, rfl, rfl, rfl⟩

/-- Claim C6 (amended): if the engine reports the open request as blocked,
`getSingletonDB` fails with the generic `DatabaseError` class carrying message
`打开数据库失败。` and wrapping the inner `DatabaseError('IDB Blocked')`; the
blocked case is distinguishable from other open failures only through the
wrapped cause, not through a distinct error class. -/
theorem getSingletonDB_blocked_wrapped :
    ∀ openDelay : Option Nat,
      timeoutWins openDelay = false →
      getSingletonDBOpen openDelay OpenOutcome.blocked =
        .error (.db "DatabaseError" "打开数据库失败。"
          (some (.db "DatabaseError" "IDB Blocked" none))) := by
  intro dl h
  unfold getSingletonDBOpen raceOpen
  rw [if_neg (by simp [h])]
  rfl

/-- Witness for the amended C6: a blocked open that would have settled within
the timeout produces the wrapped generic error. -/
theorem getSingletonDB_blocked_wrapped_witness :
    getSingletonDBOpen (some 0) OpenOutcome.blocked =
      .error (.db "DatabaseError" "打开数据库失败。"
        (some (.db "DatabaseError" "IDB Blocked" none))) :=
  getSingletonDB_blocked_wrapped (some 0) rfl

/-- Claim C7: when a request or transaction fails with an
`'InvalidStateError'`, `request2promise` and `transaction2promise` close the
owning database handle before rejecting (its state is `CLOSED`, hence no
longer `OPEN`), the error itself is still propagated, and the next
`getSingletonDB` call — seeing a non-active cached handle — falls through to
open a fresh session instead of returning the stale one. -/
theorem invalid_state_closes_session :
    ∀ (e : ErrVal) (st : DBState) (hs : List DBState) (d : Nat),
      e.errName = "InvalidStateError" →
      hs.getD d DBState.CLOSED = DBState.CLOSED →
      request2promiseOnError (some e) true st = (DBState.CLOSED, some e) ∧
      transaction2promiseOnError (some e) st = (DBState.CLOSED, some e) ∧
      isActive DBState.CLOSED = false ∧
      mcheck ⟨some d, hs⟩ = (⟨none, hs⟩, false) := by
  intro e st hs d he hcl
  have hb : (e.errName == "InvalidStateError") = true := by
    rw [he]
    rfl
  refine ⟨?_, ?_, rfl, ?_⟩
  · unfold request2promiseOnError
    simp [hb, dbClose]
  · unfold transaction2promiseOnError
    simp [hb, dbClose]
  · have ha : activeAt ⟨some d, hs⟩ = false := by
      rw [activeAt_some (m := ⟨some d, hs⟩) rfl, hcl]
      rfl
    simp only [mcheck, ha, Bool.false_eq_true, if_false]

/-- Witness for C7: a concrete `InvalidStateError` on an `OPEN` handle closes
it, the rejection carries the error through, and a subsequent
`getSingletonDB` check on the closed handle proceeds to a fresh open. -/
theorem invalid_state_closes_session_witness :
    request2promiseOnError (some ⟨"InvalidStateError", "stale"⟩) true DBState.OPEN =
      (DBState.CLOSED, some ⟨"InvalidStateError", "stale"⟩) ∧
    transaction2promiseOnError (some ⟨"InvalidStateError", "stale"⟩) DBState.OPEN =
      (DBState.CLOSED, some ⟨"InvalidStateError", "stale"⟩) ∧
    isActive DBState.CLOSED = false ∧
    mcheck ⟨some 0, [DBState.CLOSED]⟩ = (⟨none, [DBState.CLOSED]⟩, false) :=
  invalid_state_closes_session ⟨"InvalidStateError", "stale"⟩ DBState.OPEN
    [DBState.CLOSED] 0 rfl rfl

/-- Claim C8: for every query in which `row` or `col` is absent,
`getImageMaps` fails with the `DatabaseIndexError` (`Miss index`) without
performing any engine lookup. -/
theorem getImageMaps_missing_component :
    ∀ (query : QueryParam) (s : ImageMapStore),
      query.row = none ∨ query.col = none →
      getImageMaps query s = (.error databaseIndexError, []) ∧
      databaseIndexError.name = "DatabaseIndexError" ∧
      databaseIndexError.message = "Miss index" := by
  intro q s h
  refine ⟨?_, rfl, rfl⟩
  unfold getImageMaps
  cases h with
  | inl h =>
    have hn : isNil q.row = true := by
      rw [h]
      rfl
    simp [hn]
  | inr h =>
    have hn : isNil q.col = true := by
      rw [h]
      rfl
    simp [hn]

/-- Witness for C8: `findByRowCol(row=5)` with `col` omitted fails with the
`Miss index` error and performs no lookup. -/
theorem getImageMaps_missing_component_witness :
    getImageMaps ⟨some 5, none⟩ ⟨[], 1⟩ = (.error databaseIndexError, []) ∧
    databaseIndexError.name = "DatabaseIndexError" ∧
    databaseIndexError.message = "Miss index" :=
  getImageMaps_missing_component ⟨some 5, none⟩ ⟨[], 1⟩ (Or.inr rfl)

/-- Claim C10: presence of `row` and `col` is tested with `isNil`, not
truthiness, so for every query in which both are numbers — including 0 —
`getImageMaps` raises no `DatabaseIndexError` and performs exactly one
exact-match `getAll` lookup on the composite index with key `[row, col]`. -/
theorem getImageMaps_zero_present :
    ∀ (a b : Int) (s : ImageMapStore),
      getImageMaps ⟨some a, some b⟩ s =
        (.ok (getAllIdx s a b), [QOp.getAllOnly a b]) ∧
      (getImageMaps ⟨some a, some b⟩ s).1 ≠ .error databaseIndexError := by
  intro a b s
  have h : getImageMaps ⟨some a, some b⟩ s =
      (.ok (getAllIdx s a b), [QOp.getAllOnly a b]) := rfl
  refine ⟨h, ?_⟩
  rw [h]
  intro hcon
  exact Except.noConfusion hcon

/-- Claim C9: the bootstrap in `open`'s upgrade handler is idempotent — for
every database state in which the table and/or its composite index already
exist, it issues no `createObjectStore`/`createIndex` call for the existing
object (so no already-exists error can arise: the only error the guarded
handler can produce is the uniqueness violation when first building the index
over duplicated rows), it deletes no rows, and running the handler again on
the resulting state makes no calls and leaves all stored data unchanged. -/
theorem onupgradeneeded_idempotent :
    ∀ s : Schema,
      (∀ s' cs, onupgradeneeded s = .ok (s', cs) →
        (s.hasStore = true → UpCall.createStore ∉ cs) ∧
        (s.hasIndex = true → UpCall.createIndex ∉ cs) ∧
        s'.rows = s.rows ∧
        onupgradeneeded s' = .ok (s', [])) ∧
      (∀ e, onupgradeneeded s = .error e →
        e = JSErr.dom "ConstraintError" "unique index violation") := by
  intro s
  obtain ⟨hs, hi, rows⟩ := s
  cases hs <;> cases hi
  case true.true =>
    constructor
    · intro s' cs h
      injection h with h
      injection h with h1 h2
      subst h1
      subst h2
      exact ⟨fun _ => List.not_mem_nil _, fun _ => List.not_mem_nil _, rfl, rfl⟩
    · intro e h
      exact Except.noConfusion h
  case true.false =>
    cases hd : hasDupRC rows
    case false =>
      have hrun : onupgradeneeded ⟨true, false, rows⟩ =
          .ok (⟨true, true, rows⟩, [UpCall.createIndex]) := by
        simp [onupgradeneeded, createIndexM, hd]
      constructor
      · intro s' cs h
        rw [hrun] at h
        injection h with h
        injection h with h1 h2
        subst h1
        subst h2
        refine ⟨fun _ => ?_, fun hcon => ?_, rfl, rfl⟩
        · simp
        · cases hcon
      · intro e h
        rw [hrun] at h
        exact Except.noConfusion h
    case true =>
      have hrun : onupgradeneeded ⟨true, false, rows⟩ =
          .error (JSErr.dom "ConstraintError" "unique index violation") := by
        simp [onupgradeneeded, createIndexM, hd]
      constructor
      · intro s' cs h
        rw [hrun] at h
        exact Except.noConfusion h
      · intro e h
        rw [hrun] at h
        injection h with h
        exact h.symm
  case false.true =>
    have hrun : onupgradeneeded ⟨false, true, rows⟩ =
        .ok (⟨true, true, rows⟩, [UpCall.createStore]) := by
      simp [onupgradeneeded, createObjectStoreM]
    constructor
    · intro s' cs h
      rw [hrun] at h
      injection h with h
      injection h with h1 h2
      subst h1
      subst h2
      refine ⟨fun hcon => ?_, fun _ => ?_, rfl, rfl⟩
      · cases hcon
      · simp
    · intro e h
      rw [hrun] at h
      exact Except.noConfusion h
  case false.false =>
    cases hd : hasDupRC rows
    case false =>
      have hrun : onupgradeneeded ⟨false, false, rows⟩ =
          .ok (⟨true, true, rows⟩, [UpCall.createStore, UpCall.createIndex]) := by
        simp [onupgradeneeded, createObjectStoreM, createIndexM, hd]
      constructor
      · intro s' cs h
        rw [hrun] at h
        injection h with h
        injection h with h1 h2
        subst h1
        subst h2
        refine ⟨fun hcon => ?_, fun hcon => ?_, rfl, rfl⟩
        · cases hcon
        · cases hcon
      · intro e h
        rw [hrun] at h
        exact Except.noConfusion h
    case true =>
      have hrun : onupgradeneeded ⟨false, false, rows⟩ =
          .error (JSErr.dom "ConstraintError" "unique index violation") := by
        simp [onupgradeneeded, createObjectStoreM, createIndexM, hd]
      constructor
      · intro s' cs h
        rw [hrun] at h
        exact Except.noConfusion h
      · intro e h
        rw [hrun] at h
        injection h with h
        exact h.symm

/-- Witness for C9: on a schema where the table and index both exist with one
stored row, the handler makes no creation calls, keeps the row, and a second
run is again a no-op. -/
theorem onupgradeneeded_idempotent_witness :
    UpCall.createStore ∉ ([] : List UpCall) ∧
    UpCall.createIndex ∉ ([] : List UpCall) ∧
    (⟨true, true, [⟨some 1, 0, 0, 5⟩]⟩ : Schema).rows = [⟨some 1, 0, 0, 5⟩] ∧
    onupgradeneeded ⟨true, true, [⟨some 1, 0, 0, 5⟩]⟩ =
      .ok (⟨true, true, [⟨some 1, 0, 0, 5⟩]⟩, []) := by
  have h := (onupgradeneeded_idempotent ⟨true, true, [⟨some 1, 0, 0, 5⟩]⟩).1
    ⟨true, true, [⟨some 1, 0, 0, 5⟩]⟩ [] rfl
  exact ⟨h.1 rfl, h.2.1 rfl, h.2.2.1, h.2.2.2⟩

end Idb
